import Mathlib

/-
Verification of the image-upload worker (src/index.ts): a Hono handler that
signs a Google service-account JWT, exchanges it for an access token, and
uploads a file to Cloud Storage with a hand-built multipart/related body.

The TypeScript functions are embedded shallowly:
  - base64urlEncode, the final encoding step of sign, the JWT payload literal,
    the multipart body assembly, and the boundary construction are translated
    directly as pure functions on strings and byte lists (bytes as Nat);
  - the POST /upload handler's control flow is embedded as a pure function over
    the request's form-data outcome and a World record that pre-supplies the
    outcome of each effectful step (JSON.parse of the credential, key
    import/signing, the two fetch calls, and the two Date.now() reads that are
    separated by awaits); the handler also returns the list of effectful steps
    it actually performed, so "no network call is made" is a statement about
    that list.
-/

namespace ImgUpload

/-- UTF-8 bytes of a string, as natural numbers. Models both
TextEncoder().encode(s) and Buffer.from(s) in src/index.ts, which produce the
UTF-8 encoding of their string argument. -/
def utf8 (s : String) : List Nat :=
  (s.data.map (fun c => (String.utf8EncodeChar c).map UInt8.toNat)).flatten

/-- The standard base64 alphabet, indexed by 6-bit value. -/
def base64Table : List Char :=
  "ABCDEFGHIJKLMNOPQRSTUVWXYZabcdefghijklmnopqrstuvwxyz0123456789+/".data

/-- Character for a 6-bit group. -/
def b64char (n : Nat) : Char := base64Table.getD n 'A'

/-- Standard padded base64 of a byte sequence, as in Buffer.toString with the
base64 encoding: bytes are split into 6-bit groups high bits first, and a final
group of one or two bytes is padded with equals signs. -/
def base64Chars : List Nat → List Char
  | [] => []
  | [b1] => [b64char (b1 / 4), b64char (b1 % 4 * 16), '=', '=']
  | [b1, b2] => [b64char (b1 / 4), b64char (b1 % 4 * 16 + b2 / 16), b64char (b2 % 16 * 4), '=']
  | b1 :: b2 :: b3 :: rest =>
      b64char (b1 / 4) :: b64char (b1 % 4 * 16 + b2 / 16) ::
      b64char (b2 % 16 * 4 + b3 / 64) :: b64char (b3 % 64) :: base64Chars rest

/-- Replace every occurrence of character a by b: models String.replace with a
global single-character regex. -/
def replaceChar (a b : Char) (l : List Char) : List Char :=
  l.map (fun c => if c = a then b else c)

/-- Remove every trailing occurrence of character a: models the regex replace
that deletes a run of equals signs anchored at the end of the string. -/
def stripTrailing (a : Char) (l : List Char) : List Char :=
  (l.reverse.dropWhile (fun c => c == a)).reverse

/-- Models base64urlEncode from src/index.ts: base64 of the UTF-8 bytes of the
input STRING, then plus replaced by minus, slash by underscore, and trailing
equals signs stripped. -/
def base64urlEncode (data : String) : String :=
  ⟨stripTrailing '=' (replaceChar '/' '_' (replaceChar '+' '-' (base64Chars (utf8 data))))⟩

/-- Models Buffer.from(signature).toString with the base64 encoding in sign:
standard padded base64 text of the raw bytes. -/
def base64String (bytes : List Nat) : String := ⟨base64Chars bytes⟩

/-- Models the return expression of sign in src/index.ts with the raw RSA
signature bytes (the output of crypto.subtle.sign) abstracted as the input:
the code applies base64urlEncode to the base64 TEXT of the signature bytes. -/
def signEncode (sigBytes : List Nat) : String := base64urlEncode (base64String sigBytes)

/-- What the spec asserts sign returns: base64url applied directly to the raw
signature bytes (same alphabet substitution and padding strip, but over the
bytes themselves, with no intermediate textual form). -/
def base64urlBytes (bytes : List Nat) : String :=
  ⟨stripTrailing '=' (replaceChar '/' '_' (replaceChar '+' '-' (base64Chars bytes)))⟩

/-- Claim C1: the spec says sign returns base64url(signature-bytes); the code
instead returns base64url(base64-text(signature-bytes)), a double encoding.
Evaluated at the one-byte signature 0x00: the code path yields "QUE9PQ" while
base64url of the raw byte is "AA". -/
theorem signEncode_double_encodes :
    signEncode [0] = "QUE9PQ" ∧ base64urlBytes [0] = "AA" ∧
    signEncode [0] ≠ base64urlBytes [0] := by
  refine ⟨?_, ?_, ?_⟩ <;> decide

/-- The JWT claim set assembled by the upload handler. -/
structure JwtPayload where
  iss : String
  scope : String
  aud : String
  exp : Nat
  iat : Nat
deriving DecidableEq

/-- Models the payload object literal in the upload handler. The two Date.now()
reads sit in one object literal with no intervening await, and the Workers
runtime does not advance the clock within a synchronous block, so both reads
are the single timestamp nowMs (milliseconds); Math.floor of division by 1000
is Nat division. -/
def mkJwtPayload (clientEmail : String) (nowMs : Nat) : JwtPayload :=
  { iss := clientEmail
    scope := "https://www.googleapis.com/auth/devstorage.read_write"
    aud := "https://oauth2.googleapis.com/token"
    exp := nowMs / 1000 + 3600
    iat := nowMs / 1000 }

/-- Claim C2: for any invocation time, the assembled assertion payload
satisfies exp = iat + 3600 exactly. -/
theorem jwtPayload_exp_eq_iat_add_3600 (email : String) (nowMs : Nat) :
    (mkJwtPayload email nowMs).exp = (mkJwtPayload email nowMs).iat + 3600 := rfl

section Base64UrlAlphabet

lemma mem_replaceChar {x a b : Char} {l : List Char} (hx : x ∈ replaceChar a b l) :
    x = b ∨ (x ∈ l ∧ x ≠ a) := by
  unfold replaceChar at hx
  rcases List.mem_map.mp hx with ⟨c, hc, hcx⟩
  by_cases h : c = a
  · left
    rw [h, if_pos rfl] at hcx
    exact hcx.symm
  · right
    rw [if_neg h] at hcx
    exact hcx ▸ ⟨hc, h⟩

lemma mem_stripTrailing {x a : Char} {l : List Char} (hx : x ∈ stripTrailing a l) : x ∈ l := by
  unfold stripTrailing at hx
  have h1 : x ∈ l.reverse.dropWhile (fun c => c == a) := List.mem_reverse.mp hx
  exact List.mem_reverse.mp ((List.dropWhile_sublist _).mem h1)

lemma head_dropWhile_not {p : Char → Bool} {l : List Char} {c : Char}
    (h : (l.dropWhile p).head? = some c) : p c = false := by
  induction l with
  | nil => simp [List.dropWhile] at h
  | cons a l ih =>
    rw [List.dropWhile_cons] at h
    by_cases hpa : p a
    · rw [if_pos hpa] at h
      exact ih h
    · rw [if_neg hpa] at h
      simp only [List.head?_cons, Option.some.injEq] at h
      rw [← h]
      exact Bool.eq_false_iff.mpr hpa

lemma getLast_stripTrailing_ne {a : Char} (l : List Char) :
    (stripTrailing a l).getLast? ≠ some a := by
  intro h
  unfold stripTrailing at h
  rw [List.getLast?_reverse] at h
  have := head_dropWhile_not h
  simp at this

/-- Claim C4: for every input string, including the empty string, base64url
encoding emits no plus, no slash, and no trailing equals sign. -/
theorem base64urlEncode_no_forbidden (s : String) :
    '+' ∉ (base64urlEncode s).data ∧ '/' ∉ (base64urlEncode s).data ∧
    (base64urlEncode s).data.getLast? ≠ some '=' := by
  refine ⟨?_, ?_, ?_⟩
  · intro hmem
    have h2 := mem_stripTrailing hmem
    rcases mem_replaceChar h2 with h | ⟨h3, _⟩
    · exact absurd h (by decide)
    · rcases mem_replaceChar h3 with h | ⟨_, h4⟩
      · exact absurd h (by decide)
      · exact h4 rfl
  · intro hmem
    have h2 := mem_stripTrailing hmem
    rcases mem_replaceChar h2 with h | ⟨_, h3⟩
    · exact absurd h (by decide)
    · exact h3 rfl
  · exact getLast_stripTrailing_ne _

end Base64UrlAlphabet

section Boundary

/-- Base-36 digit character, lowercase, as produced by JavaScript Number
toString with radix 36. -/
def digitChar36 (d : Nat) : Char := "0123456789abcdefghijklmnopqrstuvwxyz".data.getD d '0'

/-- Numeric value of a base-36 digit character (inverse of digitChar36 on
valid digits), as used by parseInt with radix 36. -/
def digitVal36 (c : Char) : Nat := if c.toNat ≤ 57 then c.toNat - 48 else c.toNat - 87

/-- Base-36 rendering, fuel-based so that it reduces in the kernel; fuel n + 1
suffices because the argument shrinks under division by 36. -/
def toBase36Aux : Nat → Nat → List Char
  | 0, _ => []
  | fuel + 1, n =>
      if n < 36 then [digitChar36 n]
      else toBase36Aux fuel (n / 36) ++ [digitChar36 (n % 36)]

/-- Models n.toString(36) on a nonnegative integer n. -/
def toBase36 (n : Nat) : String := ⟨toBase36Aux (n + 1) n⟩

/-- Models parseInt with radix 36 applied to a valid lowercase base-36
numeral (the only shape the code feeds it). -/
def parseInt36 (s : String) : Nat := s.data.foldl (fun a c => a * 36 + digitVal36 c) 0

/-- Models the random suffix of the multipart boundary in src/index.ts, with
the four words drawn by crypto.getRandomValues abstracted as the input list.
The map over the Uint32Array parses each base-36 rendering straight back to a
number (stored again as a 32-bit word, hence the reduction mod 2^32), and join
renders the resulting words in DECIMAL. -/
def boundarySuffix (words : List Nat) : String :=
  String.intercalate "" ((words.map (fun n => parseInt36 (toBase36 n) % 4294967296)).map Nat.repr)

/-- The full boundary token. -/
def boundaryOf (words : List Nat) : String := "----WebKitFormBoundary" ++ boundarySuffix words

/-- What the spec asserts the suffix is: the concatenated base-36 renderings
of the words. -/
def boundarySuffixBase36 (words : List Nat) : String :=
  String.intercalate "" (words.map toBase36)

/-- Claim C9, counterexample: with the four random words all equal to 10, the
code's boundary suffix is the decimal "10101010", not the base-36 "aaaa" the
spec describes. -/
theorem boundarySuffix_not_base36 :
    boundarySuffix [10, 10, 10, 10] = "10101010" ∧
    boundarySuffixBase36 [10, 10, 10, 10] = "aaaa" ∧
    boundarySuffix [10, 10, 10, 10] ≠ boundarySuffixBase36 [10, 10, 10, 10] := by
  refine ⟨?_, ?_, ?_⟩ <;> decide

lemma digitVal36_digitChar36 : ∀ d < 36, digitVal36 (digitChar36 d) = d := by decide

lemma parse_toBase36Aux : ∀ fuel n, n < fuel →
    (toBase36Aux fuel n).foldl (fun a c => a * 36 + digitVal36 c) 0 = n := by
  intro fuel
  induction fuel with
  | zero => intro n h; omega
  | succ f ih =>
    intro n hn
    by_cases h36 : n < 36
    · simp only [toBase36Aux, if_pos h36, List.foldl_cons, List.foldl_nil, Nat.zero_mul,
        Nat.zero_add]
      exact digitVal36_digitChar36 n h36
    · have hd : n / 36 < n := Nat.div_lt_self (by omega) (by omega)
      rw [toBase36Aux, if_neg h36, List.foldl_append, ih (n / 36) (by omega)]
      simp only [List.foldl_cons, List.foldl_nil]
      rw [digitVal36_digitChar36 (n % 36) (Nat.mod_lt _ (by omega))]
      omega

lemma parseInt36_toBase36 (n : Nat) : parseInt36 (toBase36 n) = n :=
  parse_toBase36Aux (n + 1) n (Nat.lt_succ_self n)

/-- Claim C9, amended: the random suffix of the boundary is the concatenation
of the DECIMAL renderings of the generated 32-bit words (each base-36
rendering is immediately parsed back to the number it denotes, so base-36
never reaches the output; the join renders the words in base 10). -/
theorem boundarySuffix_is_decimal (words : List Nat) (h : ∀ n ∈ words, n < 4294967296) :
    boundarySuffix words = String.intercalate "" (words.map Nat.repr) := by
  unfold boundarySuffix
  congr 1
  rw [List.map_map]
  apply List.map_congr_left
  intro n hn
  simp only [Function.comp_apply, parseInt36_toBase36, Nat.mod_eq_of_lt (h n hn)]

/-- Witness for the amended C9 theorem at the concrete word list. -/
theorem boundarySuffix_is_decimal_witness :
    (∀ n ∈ [10, 10, 10, 10], n < 4294967296) ∧
    boundarySuffix [10, 10, 10, 10] = String.intercalate "" ([10, 10, 10, 10].map Nat.repr) :=
  ⟨by decide, boundarySuffix_is_decimal [10, 10, 10, 10] (by decide)⟩

end Boundary

section Handler

/-- The file drawn from the form data: name, MIME type and raw content. -/
structure FileData where
  name : String
  type : String
  content : List Nat
deriving DecidableEq

/-- The two credential fields read from the parsed service-account JSON. -/
structure Credential where
  client_email : String
  private_key : String
deriving DecidableEq

/-- Outcome of the token-endpoint fetch: its HTTP ok flag, and the result of
decoding its JSON body to the access_token field (none models a throw in
tokenResponse.json()). -/
structure TokenHttpResponse where
  ok : Bool
  accessToken : Option String
deriving DecidableEq

/-- Outcome of the storage upload fetch: its HTTP ok flag and its body, which
the code never reads. -/
structure UploadHttpResponse where
  ok : Bool
  body : String
deriving DecidableEq

/-- The effectful steps the handler can perform after form parsing, in source
order: JSON.parse of the credential, key import plus RSA signing, the token
fetch, and the upload fetch. -/
inductive Step
  | parseCred
  | signJwt
  | tokenFetch
  | uploadFetch
deriving DecidableEq

/-- Pre-supplied outcomes of the handler's effectful steps and environment:
the credential parse result (none models a JSON.parse throw), the sign result
(none models a key-import or signing throw), the two fetch outcomes, the two
Date.now() reads that are separated by awaits (jwtNowMs at claim assembly,
uploadNowMs at object naming), and the bucket binding. -/
structure World where
  cred : Option Credential
  signResult : Option String
  tokenResp : TokenHttpResponse
  uploadResp : UploadHttpResponse
  jwtNowMs : Nat
  uploadNowMs : Nat
  bucket : String

/-- A response as the handler produces it: status code and text body. -/
structure HttpOut where
  status : Nat
  body : String
deriving DecidableEq

/-- Models the object name images/<Date.now()>-<file.name>. -/
def objectName (nowMs : Nat) (fileName : String) : String :=
  "images/" ++ Nat.repr nowMs ++ "-" ++ fileName

/-- Models the public URL the handler derives from bucket and object name. -/
def publicUrl (bucket objName : String) : String :=
  "https://storage.googleapis.com/" ++ bucket ++ "/" ++ objName

/-- Models the POST /upload handler of src/index.ts. The first argument is the
outcome of awaiting c.req.formData() and reading the image field: none models
a throw in formData() (caught by the surrounding try), some none a form
without an image field, some (some file) a form with one. Every later
effectful step takes its outcome from the World. The result pairs the HTTP
response with the list of effectful steps the handler actually performed, in
order, so absence from that list states that an operation never ran. -/
def uploadHandler (form : Option (Option FileData)) (w : World) : HttpOut × List Step :=
  match form with
  | none => (⟨500, "Internal Server Error"⟩, [])
  | some none => (⟨400, "Missing image file"⟩, [])
  | some (some file) =>
    match w.cred with
    | none => (⟨500, "Internal Server Error"⟩, [.parseCred])
    | some _cred =>
      match w.signResult with
      | none => (⟨500, "Internal Server Error"⟩, [.parseCred, .signJwt])
      | some _sig =>
        if w.tokenResp.ok = false then
          (⟨500, "Internal Server Error"⟩, [.parseCred, .signJwt, .tokenFetch])
        else
          match w.tokenResp.accessToken with
          | none => (⟨500, "Internal Server Error"⟩, [.parseCred, .signJwt, .tokenFetch])
          | some _tok =>
            if w.uploadResp.ok = false then
              (⟨500, "Internal Server Error"⟩, [.parseCred, .signJwt, .tokenFetch, .uploadFetch])
            else
              (⟨200, "Image uploaded successfully: " ++
                  publicUrl w.bucket (objectName w.uploadNowMs file.name)⟩,
               [.parseCred, .signJwt, .tokenFetch, .uploadFetch])

/-- Claim C5: a POST /upload whose form data lacks the image field gets status
400 with body exactly "Missing image file", and the handler performs no
credential parsing, no signing and no network call (its step list is empty). -/
theorem uploadHandler_missing_image (w : World) :
    uploadHandler (some none) w = (⟨400, "Missing image file"⟩, []) := rfl

/-- Claim C6: whenever the token-endpoint exchange reports a non-success
status, a request that did carry a file gets status 500 with body
"Internal Server Error", and the storage upload fetch is never performed. -/
theorem uploadHandler_token_failure (f : FileData) (w : World)
    (htok : w.tokenResp.ok = false) :
    (uploadHandler (some (some f)) w).1 = ⟨500, "Internal Server Error"⟩ ∧
    Step.uploadFetch ∉ (uploadHandler (some (some f)) w).2 := by
  cases hc : w.cred with
  | none => simp [uploadHandler, hc]
  | some cred =>
    cases hs : w.signResult with
    | none => simp [uploadHandler, hc, hs]
    | some s => simp [uploadHandler, hc, hs, htok]

/-- Witness for the C6 theorem at a concrete file and world. -/
theorem uploadHandler_token_failure_witness :
    (uploadHandler (some (some ⟨"a.png", "image/png", [1, 2]⟩))
        ⟨some ⟨"e", "k"⟩, some "s", ⟨false, none⟩, ⟨true, ""⟩, 5, 7, "b"⟩).1 =
      ⟨500, "Internal Server Error"⟩ ∧
    Step.uploadFetch ∉
      (uploadHandler (some (some ⟨"a.png", "image/png", [1, 2]⟩))
        ⟨some ⟨"e", "k"⟩, some "s", ⟨false, none⟩, ⟨true, ""⟩, 5, 7, "b"⟩).2 :=
  uploadHandler_token_failure ⟨"a.png", "image/png", [1, 2]⟩
    ⟨some ⟨"e", "k"⟩, some "s", ⟨false, none⟩, ⟨true, ""⟩, 5, 7, "b"⟩ rfl

/-- Claim C7: every failure other than a missing image field (malformed
credential JSON, a signing throw, a failed or undecodable token exchange, or a
non-success upload status) yields the same undifferentiated response: status
500 with body "Internal Server Error". -/
theorem uploadHandler_failures_uniform_500 (f : FileData) (w : World)
    (hfail : w.cred = none ∨ w.signResult = none ∨ w.tokenResp.ok = false ∨
      w.tokenResp.accessToken = none ∨ w.uploadResp.ok = false) :
    (uploadHandler (some (some f)) w).1 = ⟨500, "Internal Server Error"⟩ := by
  cases hc : w.cred with
  | none => simp [uploadHandler, hc]
  | some cred =>
    cases hs : w.signResult with
    | none => simp [uploadHandler, hc, hs]
    | some s =>
      cases htok : w.tokenResp.ok with
      | false => simp [uploadHandler, hc, hs, htok]
      | true =>
        cases hat : w.tokenResp.accessToken with
        | none => simp [uploadHandler, hc, hs, htok, hat]
        | some t =>
          have hup : w.uploadResp.ok = false := by
            rcases hfail with h | h | h | h | h
            · rw [hc] at h; cases h
            · rw [hs] at h; cases h
            · rw [htok] at h; cases h
            · rw [hat] at h; cases h
            · exact h
          simp [uploadHandler, hc, hs, htok, hat, hup]

/-- Witness for the C7 theorem: malformed credential JSON at a concrete world. -/
theorem uploadHandler_failures_uniform_500_witness :
    (uploadHandler (some (some ⟨"a.png", "image/png", [1]⟩))
        ⟨none, none, ⟨true, some "T"⟩, ⟨true, ""⟩, 5, 7, "b"⟩).1 =
      ⟨500, "Internal Server Error"⟩ :=
  uploadHandler_failures_uniform_500 ⟨"a.png", "image/png", [1]⟩
    ⟨none, none, ⟨true, some "T"⟩, ⟨true, ""⟩, 5, 7, "b"⟩ (Or.inl rfl)

/-- Claim C8: when a file is present, the token exchange succeeds with an
access token, and the upload endpoint reports success, the handler answers 200
with a body that contains (as a suffix) the public URL
https://storage.googleapis.com/<bucket>/images/<ts>-<filename>; the URL is
built from the bucket and object name alone and the equality's right-hand side
does not mention the upload response body, so no parsing of it is involved. -/
theorem uploadHandler_success (f : FileData) (w : World) (cred : Credential)
    (s t : String)
    (hc : w.cred = some cred) (hs : w.signResult = some s)
    (htok : w.tokenResp.ok = true) (hat : w.tokenResp.accessToken = some t)
    (hup : w.uploadResp.ok = true) :
    uploadHandler (some (some f)) w =
      (⟨200, "Image uploaded successfully: " ++
          ("https://storage.googleapis.com/" ++ w.bucket ++ "/" ++
            ("images/" ++ Nat.repr w.uploadNowMs ++ "-" ++ f.name))⟩,
       [.parseCred, .signJwt, .tokenFetch, .uploadFetch]) ∧
    (publicUrl w.bucket (objectName w.uploadNowMs f.name)).data.IsSuffix
      ((uploadHandler (some (some f)) w).1.body).data := by
  have hmain : uploadHandler (some (some f)) w =
      (⟨200, "Image uploaded successfully: " ++
          ("https://storage.googleapis.com/" ++ w.bucket ++ "/" ++
            ("images/" ++ Nat.repr w.uploadNowMs ++ "-" ++ f.name))⟩,
       [.parseCred, .signJwt, .tokenFetch, .uploadFetch]) := by
    simp [uploadHandler, hc, hs, htok, hat, hup, publicUrl, objectName]
  refine ⟨hmain, ?_⟩
  rw [hmain]
  exact ⟨"Image uploaded successfully: ".data, by simp [publicUrl, objectName]⟩

/-- Witness for the C8 theorem at a concrete file and world. -/
theorem uploadHandler_success_witness :
    uploadHandler (some (some ⟨"a.png", "image/png", [1, 2, 3]⟩))
        ⟨some ⟨"e", "k"⟩, some "s", ⟨true, some "T"⟩, ⟨true, "ignored"⟩, 5, 7, "b"⟩ =
      (⟨200, "Image uploaded successfully: " ++
          ("https://storage.googleapis.com/" ++ "b" ++ "/" ++
            ("images/" ++ Nat.repr 7 ++ "-" ++ "a.png"))⟩,
       [.parseCred, .signJwt, .tokenFetch, .uploadFetch]) ∧
    (publicUrl "b" (objectName 7 "a.png")).data.IsSuffix
      ((uploadHandler (some (some ⟨"a.png", "image/png", [1, 2, 3]⟩))
        ⟨some ⟨"e", "k"⟩, some "s", ⟨true, some "T"⟩, ⟨true, "ignored"⟩, 5, 7, "b"⟩).1.body).data :=
  uploadHandler_success ⟨"a.png", "image/png", [1, 2, 3]⟩
    ⟨some ⟨"e", "k"⟩, some "s", ⟨true, some "T"⟩, ⟨true, "ignored"⟩, 5, 7, "b"⟩
    ⟨"e", "k"⟩ "s" "T" rfl rfl rfl rfl rfl

/-- Claim C10: whatever the outcome of each internal step (a formData throw, a
missing field, a credential-parse throw, a signing throw, either fetch failing
or the token body failing to decode), the handler's status is always one of
200, 400 and 500. -/
theorem uploadHandler_status_total (form : Option (Option FileData)) (w : World) :
    (uploadHandler form w).1.status = 200 ∨ (uploadHandler form w).1.status = 400 ∨
    (uploadHandler form w).1.status = 500 := by
  match form with
  | none => right; right; rfl
  | some none => right; left; rfl
  | some (some file) =>
    cases hc : w.cred with
    | none => right; right; simp [uploadHandler, hc]
    | some cred =>
      cases hs : w.signResult with
      | none => right; right; simp [uploadHandler, hs, hc]
      | some s =>
        cases htok : w.tokenResp.ok with
        | false => right; right; simp [uploadHandler, hc, hs, htok]
        | true =>
          cases hat : w.tokenResp.accessToken with
          | none => right; right; simp [uploadHandler, hc, hs, htok, hat]
          | some t =>
            cases hup : w.uploadResp.ok with
            | false => right; right; simp [uploadHandler, hc, hs, htok, hat, hup]
            | true => left; simp [uploadHandler, hc, hs, htok, hat, hup]

end Handler

section Multipart

/-- Models the multipart/related body assembly in the upload handler: the
metadata part, the file-part header and the closing delimiter are template
strings encoded with TextEncoder, and the raw file bytes are copied verbatim
between file header and closing part, exactly as the code writes the four
segments into one Uint8Array. -/
def multipartBody (boundary metadataJson fileType : String) (fileContent : List Nat) : List Nat :=
  utf8 ("--" ++ boundary ++ "\r\nContent-Type: application/json\r\n\r\n" ++ metadataJson ++ "\r\n") ++
    utf8 ("--" ++ boundary ++ "\r\nContent-Type: " ++ fileType ++ "\r\n\r\n") ++
    fileContent ++
    utf8 ("\r\n--" ++ boundary ++ "--")

lemma utf8_append (s t : String) : utf8 (s ++ t) = utf8 s ++ utf8 t := by
  simp [utf8]

/-- First-occurrence split: the bytes before the first occurrence of delim and
the bytes after it, scanning left to right as a strict streaming multipart
parser does. -/
def splitFirst (delim : List Nat) : List Nat → Option (List Nat × List Nat)
  | [] => if delim.isEmpty then some ([], []) else none
  | a :: l =>
    if delim.isPrefixOf (a :: l) then some ([], (a :: l).drop delim.length)
    else
      match splitFirst delim l with
      | some (p, q) => some (a :: p, q)
      | none => none

/-- A strict parser for the exact two-part multipart/related shape the encoder
emits: it checks the fixed JSON-part header, takes the metadata up to the
first occurrence of the middle delimiter, reads the file part's content type
up to the first blank line, and strips the closing delimiter, recovering the
metadata bytes, the content-type bytes, and the raw file bytes. -/
def parseMultipart (boundary : String) (body : List Nat) :
    Option (List Nat × List Nat × List Nat) :=
  let head := utf8 ("--" ++ boundary ++ "\r\nContent-Type: application/json\r\n\r\n")
  if head.isPrefixOf body then
    match splitFirst (utf8 ("\r\n--" ++ boundary ++ "\r\n")) (body.drop head.length) with
    | some (meta, rest1) =>
      let ctHead := utf8 "Content-Type: "
      if ctHead.isPrefixOf rest1 then
        match splitFirst (utf8 "\r\n\r\n") (rest1.drop ctHead.length) with
        | some (ctype, rest2) =>
          let closing := utf8 ("\r\n--" ++ boundary ++ "--")
          if closing.isSuffixOf rest2 then
            some (meta, ctype, rest2.take (rest2.length - closing.length))
          else none
        | none => none
      else none
    | none => none
  else none

lemma isPrefixOf_append_self (l r : List Nat) : l.isPrefixOf (l ++ r) = true := by
  induction l with
  | nil => simp [List.isPrefixOf]
  | cons a l ih => simp [List.isPrefixOf, ih]

lemma isSuffixOf_append_self (l r : List Nat) : r.isSuffixOf (l ++ r) = true := by
  unfold List.isSuffixOf
  rw [List.reverse_append]
  exact isPrefixOf_append_self _ _

lemma splitFirst_self (delim rest : List Nat) :
    splitFirst delim (delim ++ rest) = some ([], rest) := by
  cases delim with
  | nil =>
    cases rest with
    | nil => rfl
    | cons a l => simp [splitFirst, List.isPrefixOf]
  | cons d ds =>
    have h1 : (d :: ds).isPrefixOf ((d :: ds) ++ rest) = true := isPrefixOf_append_self _ _
    rw [List.cons_append] at h1 ⊢
    simp only [splitFirst, h1, if_true]
    rw [← List.cons_append, List.drop_left]

lemma splitFirst_append (delim : List Nat) : ∀ pre rest : List Nat,
    (∀ i < pre.length, delim.isPrefixOf ((pre ++ (delim ++ rest)).drop i) = false) →
    splitFirst delim (pre ++ (delim ++ rest)) = some (pre, rest) := by
  intro pre
  induction pre with
  | nil =>
    intro rest _h
    rw [List.nil_append]
    exact splitFirst_self delim rest
  | cons a p ih =>
    intro rest h
    have h0 : delim.isPrefixOf (a :: (p ++ (delim ++ rest))) = false := by
      have := h 0 (by simp)
      rw [List.cons_append] at this
      simpa using this
    have hshift : ∀ i < p.length, delim.isPrefixOf ((p ++ (delim ++ rest)).drop i) = false := by
      intro i hi
      have := h (i + 1) (by simp; omega)
      rw [List.cons_append, List.drop_succ_cons] at this
      exact this
    rw [List.cons_append]
    simp only [splitFirst, h0, Bool.false_eq_true, if_false, ih rest hshift]

lemma parseMultipart_of_shape (b : String) (M T fb : List Nat)
    (h1 : ∀ i < M.length, (utf8 ("\r\n--" ++ b ++ "\r\n")).isPrefixOf
        ((M ++ (utf8 ("\r\n--" ++ b ++ "\r\n") ++ (utf8 "Content-Type: " ++
          (T ++ (utf8 "\r\n\r\n" ++ (fb ++ utf8 ("\r\n--" ++ b ++ "--"))))))).drop i) = false)
    (h2 : ∀ i < T.length, (utf8 "\r\n\r\n").isPrefixOf
        ((T ++ (utf8 "\r\n\r\n" ++ (fb ++ utf8 ("\r\n--" ++ b ++ "--")))).drop i) = false) :
    parseMultipart b
      (utf8 ("--" ++ b ++ "\r\nContent-Type: application/json\r\n\r\n") ++
        (M ++ (utf8 ("\r\n--" ++ b ++ "\r\n") ++ (utf8 "Content-Type: " ++
          (T ++ (utf8 "\r\n\r\n" ++ (fb ++ utf8 ("\r\n--" ++ b ++ "--")))))))) =
      some (M, T, fb) := by
  have hsplit1 := splitFirst_append (utf8 ("\r\n--" ++ b ++ "\r\n")) M
    (utf8 "Content-Type: " ++ (T ++ (utf8 "\r\n\r\n" ++ (fb ++ utf8 ("\r\n--" ++ b ++ "--"))))) h1
  have hsplit2 := splitFirst_append (utf8 "\r\n\r\n") T
    (fb ++ utf8 ("\r\n--" ++ b ++ "--")) h2
  unfold parseMultipart
  simp [isPrefixOf_append_self, List.drop_left, hsplit1, hsplit2,
    isSuffixOf_append_self, List.length_append, Nat.add_sub_cancel, List.take_left]

/-- Claim C3: for every fixed boundary, metadata JSON, file content type and
payload bytes, the encoded body is byte for byte the frame
--boundary CRLF json-content-type CRLF CRLF metadata CRLF --boundary CRLF
file-content-type CRLF CRLF raw-bytes CRLF --boundary--, with the raw bytes
embedded verbatim; and the strict parser recovers the metadata bytes, the
content-type bytes and the raw bytes exactly, under the multipart compliance
conditions that the middle delimiter does not occur inside the metadata
segment and a blank line does not occur inside the content-type segment. -/
theorem multipartBody_framing_roundtrip (b m t : String) (f : List Nat)
    (h1 : ∀ i < (utf8 m).length, (utf8 ("\r\n--" ++ b ++ "\r\n")).isPrefixOf
        ((utf8 m ++ (utf8 ("\r\n--" ++ b ++ "\r\n") ++ (utf8 "Content-Type: " ++
          (utf8 t ++ (utf8 "\r\n\r\n" ++ (f ++ utf8 ("\r\n--" ++ b ++ "--"))))))).drop i) = false)
    (h2 : ∀ i < (utf8 t).length, (utf8 "\r\n\r\n").isPrefixOf
        ((utf8 t ++ (utf8 "\r\n\r\n" ++ (f ++ utf8 ("\r\n--" ++ b ++ "--")))).drop i) = false) :
    multipartBody b m t f =
      utf8 ("--" ++ b ++ "\r\nContent-Type: application/json\r\n\r\n" ++ m ++
        "\r\n--" ++ b ++ "\r\nContent-Type: " ++ t ++ "\r\n\r\n") ++ f ++
        utf8 ("\r\n--" ++ b ++ "--") ∧
    parseMultipart b (multipartBody b m t f) = some (utf8 m, utf8 t, f) := by
  have e1 : utf8 "\r\n" ++ utf8 "--" = utf8 "\r\n--" := by decide
  have e2 : utf8 "\r\n" ++ utf8 "Content-Type: " = utf8 "\r\nContent-Type: " := by decide
  have hbody : multipartBody b m t f =
      utf8 ("--" ++ b ++ "\r\nContent-Type: application/json\r\n\r\n") ++
        (utf8 m ++ (utf8 ("\r\n--" ++ b ++ "\r\n") ++ (utf8 "Content-Type: " ++
          (utf8 t ++ (utf8 "\r\n\r\n" ++ (f ++ utf8 ("\r\n--" ++ b ++ "--"))))))) := by
    simp only [multipartBody, utf8_append, List.append_assoc]
    rw [← e1, ← e2]
    simp only [List.append_assoc]
  constructor
  · rw [hbody]
    simp only [utf8_append, List.append_assoc]
    rw [← e1, ← e2]
    simp only [List.append_assoc]
  · rw [hbody]
    exact parseMultipart_of_shape b (utf8 m) (utf8 t) f h1 h2

/-- Witness for the C3 theorem at a concrete boundary, metadata, content type
and payload. -/
theorem multipartBody_framing_roundtrip_witness :
    (∀ i < (utf8 "meta").length, (utf8 ("\r\n--" ++ "B" ++ "\r\n")).isPrefixOf
        ((utf8 "meta" ++ (utf8 ("\r\n--" ++ "B" ++ "\r\n") ++ (utf8 "Content-Type: " ++
          (utf8 "png" ++ (utf8 "\r\n\r\n" ++ ([1, 2, 3] ++
            utf8 ("\r\n--" ++ "B" ++ "--"))))))).drop i) = false) ∧
    (∀ i < (utf8 "png").length, (utf8 "\r\n\r\n").isPrefixOf
        ((utf8 "png" ++ (utf8 "\r\n\r\n" ++ ([1, 2, 3] ++
          utf8 ("\r\n--" ++ "B" ++ "--")))).drop i) = false) ∧
    (multipartBody "B" "meta" "png" [1, 2, 3] =
      utf8 ("--" ++ "B" ++ "\r\nContent-Type: application/json\r\n\r\n" ++ "meta" ++
        "\r\n--" ++ "B" ++ "\r\nContent-Type: " ++ "png" ++ "\r\n\r\n") ++ [1, 2, 3] ++
        utf8 ("\r\n--" ++ "B" ++ "--") ∧
    parseMultipart "B" (multipartBody "B" "meta" "png" [1, 2, 3]) =
      some (utf8 "meta", utf8 "png", [1, 2, 3])) :=
  ⟨by decide, by decide,
    multipartBody_framing_roundtrip "B" "meta" "png" [1, 2, 3] (by decide) (by decide)⟩

end Multipart

end ImgUpload
